import Mathlib

/-!
# Verification of the lifx LAN-protocol client

Shallow embedding of the protocol engine of the `lifx` Go package:
the binary message codec (`encodeMessage` / `decodeMessage` in `msg.go`),
the RPC exchange primitive (`oneRPC`) with its retry loop (`retry`,
`retryableErr`), the per-device sequence counter, discovery response
filtering, and the product-capability resolver (`DetermineProduct`).

Bytes are modelled as `Nat` values (each `< 256` where the Go type system
guarantees it); byte buffers as `List Nat`.  Machine-integer truncation
(`uint16(x)`, `uint8` wrap-around) is made explicit with `% 2^w`.
-/

namespace Lifx

/-! ## Message header (`msg.go`, `type header`) -/

/-- Frame header portion of a LIFX message header (`header.frameHeader`). -/
structure FrameHeader where
  tagged : Bool
  source : Nat      -- uint32
deriving DecidableEq

/-- Frame address portion (`header.frameAddress`); `target` is `[8]uint8`. -/
structure FrameAddress where
  target : Fin 8 → Nat   -- [8]uint8
  resRequired : Bool
  ackRequired : Bool
  sequence : Nat         -- uint8
deriving DecidableEq

/-- Protocol header portion (`header.protocolHeader`). -/
structure ProtocolHeader where
  typ : Nat   -- uint16
deriving DecidableEq

/-- A LIFX message header (`type header` in `msg.go`). -/
structure Header where
  frameHeader : FrameHeader
  frameAddress : FrameAddress
  protocolHeader : ProtocolHeader
deriving DecidableEq

/-- Well-formedness: field values fit their Go machine-integer types. -/
def Header.Wf (h : Header) : Prop :=
  h.frameHeader.source < 2 ^ 32 ∧
  (∀ i : Fin 8, h.frameAddress.target i < 256) ∧
  h.frameAddress.sequence < 256 ∧
  h.protocolHeader.typ < 2 ^ 16

instance (h : Header) : Decidable h.Wf := by
  unfold Header.Wf; infer_instance

/-! ## Codec (`encodeMessage` / `decodeMessage`) -/

/-- `boolInt` from `msg.go`. -/
def boolInt (b : Bool) : Nat := if b then 1 else 0

/-- `binary.LittleEndian.AppendUint16`: the argument is truncated to 16 bits
by the Go conversion at the call site, which the `% 256` arithmetic makes
explicit. -/
def appendUint16 (out : List Nat) (v : Nat) : List Nat :=
  out ++ [v % 256, v / 256 % 256]

/-- `binary.LittleEndian.AppendUint32`. -/
def appendUint32 (out : List Nat) (v : Nat) : List Nat :=
  out ++ [v % 256, v / 2 ^ 8 % 256, v / 2 ^ 16 % 256, v / 2 ^ 24 % 256]

/-- `binary.LittleEndian.Uint16(b[i:i+2])`. -/
def readUint16 (b : List Nat) (i : Nat) : Nat :=
  b.getD i 0 + 256 * b.getD (i + 1) 0

/-- `binary.LittleEndian.Uint32(b[i:i+4])`. -/
def readUint32 (b : List Nat) (i : Nat) : Nat :=
  b.getD i 0 + 2 ^ 8 * b.getD (i + 1) 0 + 2 ^ 16 * b.getD (i + 2) 0 +
    2 ^ 24 * b.getD (i + 3) 0

/-- `encodeMessage` from `msg.go`: 36-byte header followed by the payload.
The Go function ends with a `panic` guard `len(out) != finalSize`;
`encodeMessagePanics` below models that guard separately. -/
def encodeMessage (hdr : Header) (payload : List Nat) : List Nat :=
  let bit := boolInt
  let finalSize := 8 + 16 + 12 + payload.length
  -- Frame header (8 bytes).
  let out := appendUint16 [] finalSize
  let out := out ++ [0]                                         -- low byte of protocol (1024)
  let out := out ++ [0x04 ||| 1 <<< 4 ||| bit hdr.frameHeader.tagged <<< 5 ||| 0 <<< 6]
  let out := appendUint32 out hdr.frameHeader.source
  -- Frame address (16 bytes).
  let out := out ++ List.ofFn hdr.frameAddress.target
  let out := out ++ [0, 0, 0, 0, 0, 0]                          -- reserved
  let out := out ++ [bit hdr.frameAddress.resRequired ||| bit hdr.frameAddress.ackRequired <<< 1]
  let out := out ++ [hdr.frameAddress.sequence]
  -- Protocol header (12 bytes).
  let out := out ++ [0, 0, 0, 0, 0, 0, 0, 0]                    -- reserved
  let out := appendUint16 out hdr.protocolHeader.typ
  let out := out ++ [0, 0]                                      -- reserved
  -- Payload itself.
  out ++ payload

/-- The `panic` guard at the end of `encodeMessage`:
`len(out) != finalSize`. -/
def encodeMessagePanics (hdr : Header) (payload : List Nat) : Bool :=
  (encodeMessage hdr payload).length ≠ 8 + 16 + 12 + payload.length

/-- Decode failures of `decodeMessage`: `message too short` and
`message has invalid size`, with the values interpolated into the Go error
strings as payload. -/
inductive DecodeError where
  | tooShort (got : Nat)
  | invalidSize (want got : Nat)
deriving DecidableEq

/-- `decodeMessage` from `msg.go`.  Note that the decoder only reads the
source, target, sequence, and type fields; the `tagged`, `resRequired`
and `ackRequired` flags are left at their Go zero value `false`
(the code carries `TODO` comments for them). -/
def decodeMessage (b : List Nat) : Except DecodeError (Header × List Nat) :=
  if b.length < 36 then
    .error (.tooShort b.length)
  else
    let finalSize := readUint16 b 0
    if finalSize ≠ b.length then
      .error (.invalidSize finalSize b.length)
    else
      let payload := b.drop 36
      let hdr : Header :=
        { frameHeader := { tagged := false, source := readUint32 b 4 }
          frameAddress :=
            { target := fun i => b.getD (8 + i.val) 0
              resRequired := false
              ackRequired := false
              sequence := b.getD 23 0 }
          protocolHeader := { typ := readUint16 b 32 } }
      .ok (hdr, payload)

end Lifx
namespace Lifx

/-! ## Codec lemmas -/

lemma ofFn_eight (f : Fin 8 → Nat) :
    List.ofFn f = [f 0, f 1, f 2, f 3, f 4, f 5, f 6, f 7] := rfl

/-- The encoder output, written as an explicit 36-byte prefix followed by
the payload. -/
lemma encodeMessage_eq_cons (hdr : Header) (payload : List Nat) :
    encodeMessage hdr payload =
      (36 + payload.length) % 256 :: (36 + payload.length) / 256 % 256 :: 0 ::
      (0x04 ||| 1 <<< 4 ||| boolInt hdr.frameHeader.tagged <<< 5 ||| 0 <<< 6) ::
      hdr.frameHeader.source % 256 :: hdr.frameHeader.source / 2 ^ 8 % 256 ::
      hdr.frameHeader.source / 2 ^ 16 % 256 :: hdr.frameHeader.source / 2 ^ 24 % 256 ::
      hdr.frameAddress.target 0 :: hdr.frameAddress.target 1 :: hdr.frameAddress.target 2 ::
      hdr.frameAddress.target 3 :: hdr.frameAddress.target 4 :: hdr.frameAddress.target 5 ::
      hdr.frameAddress.target 6 :: hdr.frameAddress.target 7 ::
      0 :: 0 :: 0 :: 0 :: 0 :: 0 ::
      (boolInt hdr.frameAddress.resRequired ||| boolInt hdr.frameAddress.ackRequired <<< 1) ::
      hdr.frameAddress.sequence ::
      0 :: 0 :: 0 :: 0 :: 0 :: 0 :: 0 :: 0 ::
      hdr.protocolHeader.typ % 256 :: hdr.protocolHeader.typ / 256 % 256 ::
      0 :: 0 :: payload := by
  simp only [encodeMessage, appendUint16, appendUint32, ofFn_eight, List.append_assoc,
    List.cons_append, List.nil_append]

/-- What `decodeMessage` recovers from an encoded message: everything except
the three header flags, which the decoder leaves at `false`. -/
lemma decodeMessage_encodeMessage (hdr : Header) (payload : List Nat)
    (hWf : hdr.Wf) (hlen : 36 + payload.length < 65536) :
    decodeMessage (encodeMessage hdr payload) =
      .ok (⟨⟨false, hdr.frameHeader.source⟩,
            ⟨hdr.frameAddress.target, false, false, hdr.frameAddress.sequence⟩,
            ⟨hdr.protocolHeader.typ⟩⟩, payload) := by
  obtain ⟨hs, ht, hq, hy⟩ := hWf
  rw [encodeMessage_eq_cons]
  unfold decodeMessage
  rw [if_neg (by simp), if_neg (by simp [readUint16]; omega)]
  simp only [Except.ok.injEq, Prod.mk.injEq, Header.mk.injEq, FrameHeader.mk.injEq,
    FrameAddress.mk.injEq, ProtocolHeader.mk.injEq]
  and_intros <;> first
    | rfl
    | trivial
    | (simp [readUint32]; omega)
    | (simp [readUint16]; omega)
    | (funext i; fin_cases i <;> simp)

/-! ## Claim theorems: codec -/

/-- C9: for every header and payload, `encodeMessage` succeeds (its internal
`panic` guard `len(out) != finalSize` never fires), the output has length
exactly `36 + len(payload)`, and — whenever the total fits the 16-bit size
field, i.e. the payload is not impossibly large — the little-endian size
field at bytes 0–1 equals that total. -/
theorem encodeMessage_total_length (hdr : Header) (payload : List Nat) :
    encodeMessagePanics hdr payload = false ∧
    (encodeMessage hdr payload).length = 36 + payload.length ∧
    (36 + payload.length < 65536 →
      readUint16 (encodeMessage hdr payload) 0 = 36 + payload.length) := by
  have hlen : (encodeMessage hdr payload).length = 36 + payload.length := by
    rw [encodeMessage_eq_cons]; simp; omega
  refine ⟨?_, hlen, ?_⟩
  · simp [encodeMessagePanics, hlen]
  · intro h
    rw [encodeMessage_eq_cons]
    simp [readUint16]
    omega

/-- Witness for C9 at a concrete input. -/
theorem encodeMessage_total_length_witness :
    (encodeMessage ⟨⟨true, 0xdeadbeef⟩, ⟨fun _ => 1, false, true, 9⟩, ⟨2⟩⟩ [5, 6]).length
        = 38 ∧
    readUint16 (encodeMessage ⟨⟨true, 0xdeadbeef⟩, ⟨fun _ => 1, false, true, 9⟩, ⟨2⟩⟩ [5, 6]) 0
        = 38 := by
  have h := encodeMessage_total_length ⟨⟨true, 0xdeadbeef⟩, ⟨fun _ => 1, false, true, 9⟩, ⟨2⟩⟩
    [5, 6]
  exact ⟨h.2.1, h.2.2 (by decide)⟩

/-- C8: `decodeMessage` fails exactly when the buffer is shorter than 36
bytes or the declared 16-bit size field differs from the buffer length; it
performs no other validation, so any buffer of length ≥ 36 whose size field
equals its length decodes successfully, whatever the other bytes hold. -/
theorem decodeMessage_ok_iff (b : List Nat) :
    (∃ hdr payload, decodeMessage b = .ok (hdr, payload)) ↔
      (36 ≤ b.length ∧ readUint16 b 0 = b.length) := by
  unfold decodeMessage
  by_cases h1 : b.length < 36
  · rw [if_pos h1]
    simp
    omega
  · rw [if_neg h1]
    by_cases h2 : readUint16 b 0 ≠ b.length
    · rw [if_pos h2]
      simp
      omega
    · rw [if_neg h2]
      simp
      omega

/-- Witness for C8: a 36-byte all-zero buffer except for a correct size
field decodes successfully; the iff is applied at that concrete buffer. -/
theorem decodeMessage_ok_iff_witness :
    ∃ hdr payload,
      decodeMessage (36 :: List.replicate 35 0) = .ok (hdr, payload) := by
  exact (decodeMessage_ok_iff (36 :: List.replicate 35 0)).mpr (by decide)

end Lifx
namespace Lifx

/-! ## Claim C1: round-trip -/

/-- A header with `resRequired` set, used to exhibit that the decoder does
not recover the flag bits. -/
def rtCexHeader : Header :=
  ⟨⟨false, 0⟩, ⟨fun _ => 0, true, false, 0⟩, ⟨0⟩⟩

/-- C1 counterexample: the claim fails as stated.  `rtCexHeader` is a valid
header with `resRequired = true`, yet decoding its encoding yields a header
whose `resRequired` (and `ackRequired`) are `false`: `decodeMessage` never
reads the flags byte (it has a `TODO` comment for it), so the flags are not
reproduced by the round trip. -/
theorem decode_encode_flags_cex :
    rtCexHeader.Wf ∧ rtCexHeader.frameAddress.resRequired = true ∧
    ((decodeMessage (encodeMessage rtCexHeader [])).toOption.map
      (fun r => (r.1.frameAddress.resRequired, r.1.frameAddress.ackRequired))) =
      some (false, false) := by
  refine ⟨by decide, rfl, ?_⟩
  decide

/-- C1 (amended): for every valid (header, payload) pair whose total size
fits the 16-bit size field, decoding the encoding succeeds and reproduces
the message type, the full 8-byte target (hence the 6-byte serial), the
sequence number, the source identifier and the payload bytes; the
`resRequired`/`ackRequired` flags are NOT reproduced — the decoder always
reports them as `false`. -/
theorem decode_encode_roundtrip (hdr : Header) (payload : List Nat)
    (hWf : hdr.Wf) (hlen : 36 + payload.length < 65536) :
    ∃ hdr', decodeMessage (encodeMessage hdr payload) = .ok (hdr', payload) ∧
      hdr'.protocolHeader.typ = hdr.protocolHeader.typ ∧
      (∀ i : Fin 8, hdr'.frameAddress.target i = hdr.frameAddress.target i) ∧
      hdr'.frameAddress.sequence = hdr.frameAddress.sequence ∧
      hdr'.frameHeader.source = hdr.frameHeader.source ∧
      hdr'.frameAddress.resRequired = false ∧
      hdr'.frameAddress.ackRequired = false :=
  ⟨_, decodeMessage_encodeMessage hdr payload hWf hlen,
    rfl, fun _ => rfl, rfl, rfl, rfl, rfl⟩

/-- Witness for C1 (amended) at a concrete valid pair. -/
theorem decode_encode_roundtrip_witness :
    ∃ hdr', decodeMessage
        (encodeMessage ⟨⟨false, 7⟩, ⟨fun _ => 2, true, true, 5⟩, ⟨45⟩⟩ [1, 2, 3]) =
        .ok (hdr', [1, 2, 3]) ∧
      hdr'.protocolHeader.typ = 45 ∧
      (∀ i : Fin 8, hdr'.frameAddress.target i = 2) ∧
      hdr'.frameAddress.sequence = 5 ∧
      hdr'.frameHeader.source = 7 ∧
      hdr'.frameAddress.resRequired = false ∧
      hdr'.frameAddress.ackRequired = false :=
  decode_encode_roundtrip ⟨⟨false, 7⟩, ⟨fun _ => 2, true, true, 5⟩, ⟨45⟩⟩ [1, 2, 3]
    (by decide) (by decide)

end Lifx
namespace Lifx

/-! ## RPC engine (`msg.go`: `retryableErr`, `retry`, `oneRPC`) -/

/-- Automatic retry parameters from `msg.go`, in nanoseconds
(`time.Duration` units): `baseTimeout = 300ms`, `maxTimeout = 10s`. -/
def baseTimeout : Nat := 300000000

/-- `maxTimeout` (10s) in nanoseconds. -/
def maxTimeout : Nat := 10000000000

/-- One backoff step: `time.Duration(float64(timeout) * backoffMult)` with
`backoffMult = 1.5`, then capped at `maxTimeout`.  Every duration reachable
from `baseTimeout` by this map keeps its product with 1.5 exactly
representable in a float64 (all values stay far below 2^53), and Go's
float-to-integer conversion truncates, so the float computation coincides
with the integer expression `t * 3 / 2` (Nat division truncates). -/
def nextTimeout (t : Nat) : Nat :=
  let t' := t * 3 / 2
  if t' > maxTimeout then maxTimeout else t'

/-- Errors an RPC attempt (`f(sub)` inside `retry`) can produce:
`context.DeadlineExceeded`, `context.Canceled`, a `net.Error` whose
`Timeout()` reports true, or any other (permanent) error, tagged by a
code standing for its message. -/
inductive NetError where
  | deadlineExceeded
  | canceled
  | netTimeout
  | other (code : Nat)
deriving DecidableEq

/-- `retryableErr` from `msg.go`: nil errors are not retried;
`context.DeadlineExceeded` and timeout-flavoured `net.Error`s are;
everything else is treated as permanent. -/
def retryableErr : Option NetError → Bool
  | none => false
  | some .deadlineExceeded => true
  | some .netTimeout => true
  | some _ => false

/-- What `ctx.Err()` can report once the overall context is done. -/
inductive CtxErr where
  | deadlineExceeded
  | canceled
deriving DecidableEq

/-- The `error` value `ctx.Err()` returns, as a `NetError`. -/
def CtxErr.toNetError : CtxErr → NetError
  | .deadlineExceeded => .deadlineExceeded
  | .canceled => .canceled

/-- The observable outcome of one attempt of the retried operation: what
`f(sub)` produced (a decoded datagram, or an error), and what `ctx.Err()`
would report at that moment (`none` while the overall context is live). -/
structure Attempt where
  recv : Except NetError (Header × List Nat)
  ctxErr : Option CtxErr

/-- The error (if any) of an attempt result, as passed to `retryableErr`. -/
def attemptErr : Except NetError (Header × List Nat) → Option NetError
  | .ok _ => none
  | .error e => some e

/-- `Device.retry` from `msg.go`, driven by a finite trace of attempt
outcomes.  Returns the final result (`none` when the trace ends before the
loop does) together with the per-attempt timeout values used, in order. -/
def retry (t : Nat) : List Attempt → Option (Except NetError (Header × List Nat)) × List Nat
  | [] => (none, [])
  | a :: rest =>
    if retryableErr (attemptErr a.recv) = false then
      -- Success, or a non-timeout failure.
      (some a.recv, [t])
    else
      match a.ctxErr with
      | some ce =>
        -- Give up on the overall effort.
        (some (.error ce.toNetError), [t])
      | none =>
        -- Try again.
        let r := retry (nextTimeout t) rest
        (r.1, t :: r.2)

/-- Per-device state used by `oneRPC`: the 6-byte serial and the `uint8`
sequence counter `d.seq` (the `Device` struct fields that the RPC engine
reads and writes). -/
structure DeviceState where
  serial : Fin 6 → Nat
  seq : Nat
deriving DecidableEq

/-- Lines `seq := d.seq; d.seq++` of `oneRPC`: return the allocated
sequence number and the updated device; the `uint8` increment wraps
modulo 256. -/
def allocSeq (d : DeviceState) : Nat × DeviceState :=
  (d.seq, { d with seq := (d.seq + 1) % 256 })

/-- The request header `oneRPC` builds: the session source, the device
serial in the first 6 target bytes, the given flags, the allocated
sequence number, and the request type. -/
def rpcRequestHeader (source : Nat) (d : DeviceState) (resRequired ackRequired : Bool)
    (reqType seq : Nat) : Header :=
  { frameHeader := { tagged := false, source := source }
    frameAddress :=
      { target := fun i => if h : i.val < 6 then d.serial ⟨i.val, h⟩ else 0
        resRequired := resRequired
        ackRequired := ackRequired
        sequence := seq }
    protocolHeader := { typ := reqType } }

/-- Errors `oneRPC` can return: an error from the retry loop, or one of the
three protocol-mismatch failures from response validation. -/
inductive RpcError where
  | net (e : NetError)
  | sourceMismatch (got want : Nat)
  | typeMismatch (got want : Nat)
  | seqMismatch (got want : Nat)
deriving DecidableEq

/-- The ProtocolMismatch class of `RpcError`s: wrong source, type or
sequence in a received well-formed message. -/
def RpcError.isProtocolMismatch : RpcError → Bool
  | .sourceMismatch _ _ => true
  | .typeMismatch _ _ => true
  | .seqMismatch _ _ => true
  | .net _ => false

/-- Result of `oneRPC`: the returned value (`none` when the attempt trace
ran out), the device state afterwards, and the datagrams sent (one per
attempt, all equal to the one message encoded before the loop). -/
structure OneRPCOutcome where
  result : Option (Except RpcError (List Nat))
  dev : DeviceState
  sent : List (List Nat)

/-- `oneRPC` from `msg.go`, driven by a trace of attempt outcomes:
allocate a sequence number (post-increment), encode the request once,
run the retry loop, then validate source, type and sequence of the
received response. -/
def oneRPC (source : Nat) (d : DeviceState) (reqType respType : Nat) (reqBody : List Nat)
    (resRequired ackRequired : Bool) (attempts : List Attempt) : OneRPCOutcome :=
  let sd := allocSeq d
  let hdr := rpcRequestHeader source d resRequired ackRequired reqType sd.1
  let msg := encodeMessage hdr reqBody
  let r := retry baseTimeout attempts
  let sent := List.replicate r.2.length msg
  let result : Option (Except RpcError (List Nat)) :=
    match r.1 with
    | none => none
    | some (.error e) => some (.error (.net e))
    | some (.ok (respHdr, respBody)) =>
      if respHdr.frameHeader.source ≠ source then
        some (.error (.sourceMismatch respHdr.frameHeader.source source))
      else if respHdr.protocolHeader.typ ≠ respType then
        some (.error (.typeMismatch respHdr.protocolHeader.typ respType))
      else if respHdr.frameAddress.sequence ≠ sd.1 then
        some (.error (.seqMismatch respHdr.frameAddress.sequence sd.1))
      else
        some (.ok respBody)
  ⟨result, sd.2, sent⟩

/-- Once the retry loop has settled on a result, later attempts in the
trace are never consumed. -/
lemma retry_append (t : Nat) (xs ys : List Attempt) (r : Except NetError (Header × List Nat))
    (ts : List Nat) (h : retry t xs = (some r, ts)) :
    retry t (xs ++ ys) = (some r, ts) := by
  induction xs generalizing t ts with
  | nil => simp [retry] at h
  | cons a rest ih =>
    rw [List.cons_append]
    unfold retry at h ⊢
    by_cases hr : retryableErr (attemptErr a.recv) = false
    · rw [if_pos hr] at h ⊢; exact h
    · rw [if_neg hr] at h ⊢
      cases hce : a.ctxErr with
      | some ce => rw [hce] at h; exact h
      | none =>
        rw [hce] at h
        rcases hrec : retry (nextTimeout t) rest with ⟨r1, ts1⟩
        simp only [hrec] at h
        obtain ⟨h1, h2⟩ := Prod.mk.injEq .. |>.mp h
        subst h1
        subst h2
        have hih := ih (nextTimeout t) ts1 hrec
        simp only [hih]

end Lifx
namespace Lifx

/-- C2: when the retry loop delivers a decoded response datagram, `oneRPC`
returns its payload exactly when the response's source equals the
session's, its type equals the expected response type, and its sequence
number equals the one allocated for this request (the device counter value
`d.seq`); on any mismatch it returns a ProtocolMismatch error, and the
response settles the exchange — attempts after it are never consumed
(the mismatch is not retried). -/
theorem oneRPC_validates (source : Nat) (d : DeviceState) (reqType respType : Nat)
    (reqBody : List Nat) (rr ar : Bool) (attempts rest : List Attempt)
    (respHdr : Header) (respBody : List Nat)
    (hrecv : (retry baseTimeout attempts).1 = some (.ok (respHdr, respBody))) :
    ((oneRPC source d reqType respType reqBody rr ar attempts).result =
        some (.ok respBody) ↔
      (respHdr.frameHeader.source = source ∧ respHdr.protocolHeader.typ = respType ∧
        respHdr.frameAddress.sequence = d.seq)) ∧
    ((respHdr.frameHeader.source ≠ source ∨ respHdr.protocolHeader.typ ≠ respType ∨
        respHdr.frameAddress.sequence ≠ d.seq) →
      ∃ e, (oneRPC source d reqType respType reqBody rr ar attempts).result =
          some (.error e) ∧ e.isProtocolMismatch = true) ∧
    ((oneRPC source d reqType respType reqBody rr ar (attempts ++ rest)).result =
      (oneRPC source d reqType respType reqBody rr ar attempts).result) := by
  rcases hr : retry baseTimeout attempts with ⟨r1, ts⟩
  rw [hr] at hrecv
  simp only at hrecv
  subst hrecv
  have happ := retry_append baseTimeout attempts rest _ _ hr
  refine ⟨?_, ?_, ?_⟩
  · unfold oneRPC
    simp only [hr, allocSeq]
    by_cases h1 : respHdr.frameHeader.source = source
    · by_cases h2 : respHdr.protocolHeader.typ = respType
      · by_cases h3 : respHdr.frameAddress.sequence = d.seq
        · simp [h1, h2, h3]
        · simp [h1, h2, h3]
      · simp [h1, h2]
    · simp [h1]
  · intro hmis
    unfold oneRPC
    simp only [hr, allocSeq]
    by_cases h1 : respHdr.frameHeader.source = source
    · by_cases h2 : respHdr.protocolHeader.typ = respType
      · by_cases h3 : respHdr.frameAddress.sequence = d.seq
        · rcases hmis with h | h | h <;> [exact absurd h1 h; exact absurd h2 h; exact absurd h3 h]
        · exact ⟨.seqMismatch respHdr.frameAddress.sequence d.seq, by simp [h1, h2, h3], rfl⟩
      · exact ⟨.typeMismatch respHdr.protocolHeader.typ respType, by simp [h1, h2], rfl⟩
    · exact ⟨.sourceMismatch respHdr.frameHeader.source source, by simp [h1], rfl⟩
  · unfold oneRPC
    simp only [hr, happ]

end Lifx
namespace Lifx

/-- Witness for C2: a response carrying sequence 8 when 9 was allocated
makes the exchange fail with a ProtocolMismatch error. -/
theorem oneRPC_validates_witness :
    ∃ e, (oneRPC 1 ⟨fun _ => 0, 9⟩ 20 22 [] true false
        [⟨.ok (⟨⟨false, 1⟩, ⟨fun _ => 0, false, false, 8⟩, ⟨22⟩⟩, []), none⟩]).result =
        some (.error e) ∧ e.isProtocolMismatch = true :=
  (oneRPC_validates 1 ⟨fun _ => 0, 9⟩ 20 22 [] true false
      [⟨.ok (⟨⟨false, 1⟩, ⟨fun _ => 0, false, false, 8⟩, ⟨22⟩⟩, []), none⟩] []
      ⟨⟨false, 1⟩, ⟨fun _ => 0, false, false, 8⟩, ⟨22⟩⟩ [] rfl).2.1
    (Or.inr (Or.inr (by decide)))

/-- C3: retry policy of the RPC engine.  Non-timeout errors (permanent
network errors, cancellation) terminate the loop at once with that error
and no further attempt; exactly the timeout-flavoured errors are
retryable; a timeout with the overall context already done fails with the
context's (Timeout) error; a timeout with time remaining retries with the
per-attempt timeout multiplied by 1.5 and capped at `maxTimeout`; and
every datagram sent across all attempts is the identical byte string
encoded once before the loop. -/
theorem retry_policy (t : Nat) (rest : List Attempt) :
    (∀ code c, retry t (⟨.error (.other code), c⟩ :: rest) =
        (some (.error (.other code)), [t])) ∧
    (∀ c, retry t (⟨.error .canceled, c⟩ :: rest) = (some (.error .canceled), [t])) ∧
    (∀ e, retryableErr (some e) = true ↔ (e = .netTimeout ∨ e = .deadlineExceeded)) ∧
    (∀ e ce, retryableErr (some e) = true →
      retry t (⟨.error e, some ce⟩ :: rest) = (some (.error ce.toNetError), [t])) ∧
    (∀ e, retryableErr (some e) = true →
      retry t (⟨.error e, none⟩ :: rest) =
        ((retry (min (t * 3 / 2) maxTimeout) rest).1,
          t :: (retry (min (t * 3 / 2) maxTimeout) rest).2)) ∧
    (∀ source d reqType respType reqBody rr ar attempts,
      ∀ m ∈ (oneRPC source d reqType respType reqBody rr ar attempts).sent,
        m = encodeMessage (rpcRequestHeader source d rr ar reqType d.seq) reqBody) := by
  have hnt : nextTimeout t = min (t * 3 / 2) maxTimeout := by
    simp only [nextTimeout]
    split <;> omega
  refine ⟨?_, ?_, ?_, ?_, ?_, ?_⟩
  · intro code c
    simp [retry, retryableErr, attemptErr]
  · intro c
    simp [retry, retryableErr, attemptErr]
  · intro e
    cases e <;> simp [retryableErr]
  · intro e ce he
    cases e <;> simp_all [retry, retryableErr, attemptErr]
  · intro e he
    rw [← hnt]
    cases e <;> simp_all [retry, retryableErr, attemptErr]
  · intro source d reqType respType reqBody rr ar attempts m hm
    unfold oneRPC at hm
    simp only [allocSeq, List.mem_replicate] at hm
    exact hm.2

/-- Witness for C3: a permanent error stops after one attempt; a timeout
with the deadline elapsed yields the Timeout error; a lone timeout with
time remaining consumes the attempt at the base timeout. -/
theorem retry_policy_witness :
    retry baseTimeout [⟨.error (.other 5), none⟩] =
      (some (.error (.other 5)), [baseTimeout]) ∧
    retry baseTimeout [⟨.error .netTimeout, some .deadlineExceeded⟩] =
      (some (.error .deadlineExceeded), [baseTimeout]) ∧
    retry baseTimeout [⟨.error .netTimeout, none⟩] = (none, [baseTimeout]) := by
  refine ⟨(retry_policy baseTimeout []).1 5 none, ?_, ?_⟩
  · exact (retry_policy baseTimeout []).2.2.2.1 .netTimeout .deadlineExceeded rfl
  · have h := (retry_policy baseTimeout []).2.2.2.2.1 .netTimeout rfl
    rw [h]
    rfl

/-- Iterating the sequence-number allocation performed at the top of
`oneRPC`, once per RPC exchange on the same device. -/
def afterRPCCalls (d : DeviceState) : Nat → DeviceState
  | 0 => d
  | k + 1 => afterRPCCalls (allocSeq d).2 k

/-- The sequence number allocated by the (k+1)-th RPC exchange. -/
def nthRPCSeq (d : DeviceState) (k : Nat) : Nat :=
  (allocSeq (afterRPCCalls d k)).1

lemma afterRPCCalls_seq (d : DeviceState) (h : d.seq < 256) (k : Nat) :
    (afterRPCCalls d k).seq = (d.seq + k) % 256 := by
  induction k generalizing d with
  | zero =>
    simp [afterRPCCalls]
    omega
  | succ n ih =>
    rw [afterRPCCalls, ih _ (by simp [allocSeq]; omega)]
    simp [allocSeq]
    omega

/-- C10: every RPC exchange allocates the device counter's current value
and post-increments it with wrap-around at 256, so the k-th exchange on a
device uses sequence `(seq0 + k) % 256`, successive exchanges strictly
increase the sequence modulo 256, and after 256 exchanges the counter is
back at its starting value. -/
theorem rpc_sequence_counter (d : DeviceState) (h : d.seq < 256) :
    (∀ source reqType respType reqBody rr ar attempts,
      (oneRPC source d reqType respType reqBody rr ar attempts).dev = (allocSeq d).2) ∧
    (∀ k, nthRPCSeq d k = (d.seq + k) % 256) ∧
    (∀ k, nthRPCSeq d (k + 1) = (nthRPCSeq d k + 1) % 256) ∧
    (afterRPCCalls d 256).seq = d.seq := by
  have hseq : ∀ k, nthRPCSeq d k = (d.seq + k) % 256 := by
    intro k
    unfold nthRPCSeq
    simp [allocSeq, afterRPCCalls_seq d h k]
  refine ⟨fun _ _ _ _ _ _ _ => rfl, hseq, ?_, ?_⟩
  · intro k
    rw [hseq, hseq]
    omega
  · rw [afterRPCCalls_seq d h]
    omega

/-- Witness for C10 on a device whose counter starts at 250. -/
theorem rpc_sequence_counter_witness :
    nthRPCSeq ⟨fun _ => 0, 250⟩ 10 = 4 ∧
    (afterRPCCalls ⟨fun _ => 0, 250⟩ 256).seq = 250 := by
  have h := rpc_sequence_counter ⟨fun _ => 0, 250⟩ (by decide)
  refine ⟨?_, h.2.2.2⟩
  rw [h.2.1 10]
  decide

end Lifx
namespace Lifx

/-! ## Discovery

The repository's current discovery routine is the `Client.Discover` method
(invoked by `cmd/ping` and the package example); the source tree only
contains an older package-level `Discover` — in which the source-identifier
check is still a `TODO` and no deduplication is done — together with the
client method's callers.  The definitions below therefore model the missing
method from the spec. -/

/-- A datagram as received from the socket during the discovery window:
its raw bytes and the responder's source IP (the response's own source
port is never used). -/
structure Datagram where
  raw : List Nat
  fromIP : Nat

/-- A discovered device: its address (responder IP + advertised port) and
its 6-byte serial. -/
structure Device where
  addrIP : Nat
  addrPort : Nat
  serial : List Nat
deriving DecidableEq

/-- Modelled from the spec: the per-datagram acceptance step of the missing
`Client.Discover` method.  A response yields a device only if it decodes,
the source identifier in its header matches the one this session sent, the
message type is state-service (3), the payload is exactly 5 bytes, the
1-byte service identifier is 1 (UDP), and the 4-byte little-endian port
fits in 16 bits; the accepted device's address is the responder's source
IP with the port carried in the payload. -/
def discoveryAccept (source : Nat) (dg : Datagram) : Option Device :=
  match decodeMessage dg.raw with
  | .error _ => none
  | .ok (hdr, payload) =>
    if hdr.frameHeader.source ≠ source then none
    else if hdr.protocolHeader.typ ≠ 3 then none
    else if payload.length ≠ 5 then none
    else if payload.getD 0 0 ≠ 1 then none
    else
      let port := readUint32 payload 1
      if port > 0xffff then none
      else some ⟨dg.fromIP, port, (List.ofFn hdr.frameAddress.target).take 6⟩

/-- Modelled from the spec: the collection loop of the missing
`Client.Discover` method over the datagrams received within the discovery
window, deduplicating accepted responders by serial. -/
def discoverLoop (source : Nat) : List Datagram → List Device → List Device
  | [], devs => devs
  | dg :: rest, devs =>
    match discoveryAccept source dg with
    | none => discoverLoop source rest devs
    | some dev =>
      if devs.any (fun d => d.serial == dev.serial) then
        discoverLoop source rest devs
      else
        discoverLoop source rest (devs ++ [dev])

/-- Modelled from the spec: `Client.Discover`, as a function of the
datagrams that arrive within the window. -/
def discover (source : Nat) (dgs : List Datagram) : List Device :=
  discoverLoop source dgs []

/-- C4: a datagram received during discovery is accepted as a device
exactly when it decodes, its header's source identifier equals the one the
session sent, its type is state-service (3), its payload is exactly 5
bytes, the service byte is 1 (UDP), and the little-endian port in payload
bytes 1–4 fits in 16 bits — and then the device's address is the
responder's source IP paired with the payload port, and its serial the
first 6 target bytes. -/
theorem discoveryAccept_iff (source : Nat) (dg : Datagram) (dev : Device) :
    discoveryAccept source dg = some dev ↔
      ∃ hdr payload, decodeMessage dg.raw = .ok (hdr, payload) ∧
        hdr.frameHeader.source = source ∧
        hdr.protocolHeader.typ = 3 ∧
        payload.length = 5 ∧
        payload.getD 0 0 = 1 ∧
        readUint32 payload 1 ≤ 0xffff ∧
        dev = ⟨dg.fromIP, readUint32 payload 1,
          (List.ofFn hdr.frameAddress.target).take 6⟩ := by
  unfold discoveryAccept
  rcases hd : decodeMessage dg.raw with e | hp
  · simp
  · rcases hp with ⟨hdr, payload⟩
    constructor
    · intro hacc
      simp only at hacc
      split_ifs at hacc with h1 h2 h3 h4 h5
      simp only [Option.some.injEq] at hacc
      exact ⟨hdr, payload, rfl, not_not.mp h1, not_not.mp h2, not_not.mp h3,
        not_not.mp h4, Nat.le_of_not_lt h5, hacc.symm⟩
    · rintro ⟨hdr', payload', hdec, h1, h2, h3, h4, h5, hdev⟩
      obtain ⟨rfl, rfl⟩ : hdr' = hdr ∧ payload' = payload := by
        have h := hdec
        simp only [Except.ok.injEq, Prod.mk.injEq] at h
        exact ⟨h.1.symm, h.2.symm⟩
      simp only
      rw [hdev]
      simp [h1, h2, h3, h4, h5, List.getD]
      rw [← h4]
      exact (List.getD_eq_getElem payload' 0 (by omega)).symm

end Lifx
namespace Lifx

/-- Witness for C4: a well-formed state-service response advertising UDP
port 56700 is accepted with the responder's IP and the payload port. -/
theorem discoveryAccept_witness :
    discoveryAccept 9
        ⟨encodeMessage ⟨⟨false, 9⟩, ⟨fun _ => 3, false, false, 1⟩, ⟨3⟩⟩ [1, 124, 221, 0, 0],
          777⟩ =
      some ⟨777, 56700, [3, 3, 3, 3, 3, 3]⟩ := by
  refine (discoveryAccept_iff 9 _ _).mpr ⟨_, _, rfl, rfl, rfl, rfl, rfl, by decide, by decide⟩

/-- The loop invariant for deduplication: if the accumulator has pairwise
distinct serials, so does the final device list. -/
lemma discoverLoop_pairwise (source : Nat) (dgs : List Datagram) (devs : List Device)
    (h : devs.Pairwise (fun a b => a.serial ≠ b.serial)) :
    (discoverLoop source dgs devs).Pairwise (fun a b => a.serial ≠ b.serial) := by
  induction dgs generalizing devs with
  | nil => simpa [discoverLoop] using h
  | cons dg rest ih =>
    unfold discoverLoop
    rcases discoveryAccept source dg with _ | dev
    · exact ih devs h
    · simp only
      by_cases hmem : devs.any (fun d => d.serial == dev.serial)
      · rw [if_pos hmem]
        exact ih devs h
      · rw [if_neg hmem]
        have hmem' : ∀ x ∈ devs, x.serial ≠ dev.serial := by
          intro x hx hser
          exact hmem (by simp only [List.any_eq_true, beq_iff_eq]; exact ⟨x, hx, hser⟩)
        refine ih _ (List.pairwise_append.mpr ⟨h, List.pairwise_singleton .., ?_⟩)
        intro a ha b hb
        simp only [List.mem_singleton] at hb
        subst hb
        exact hmem' a ha

/-- C5: the device list returned by discovery never contains two entries
with the same serial — duplicate responses within the window collapse to a
single device. -/
theorem discover_dedup (source : Nat) (dgs : List Datagram) :
    (discover source dgs).Pairwise (fun a b => a.serial ≠ b.serial) :=
  discoverLoop_pairwise source dgs [] (List.Pairwise.nil)

end Lifx
namespace Lifx

/-! ## Capability resolver (`products.go`: `ProductCapabilities`,
`DetermineProduct`) -/

/-- `ProductCapabilities`: nullable feature fields with layered-default
semantics.  `TemperatureRange` is a `[]uint16` (empty list = Go `nil`);
per the source comment it should hold two values but may be nil even from
`DetermineProduct`. -/
structure ProductCapabilities where
  HEV : Option Bool
  Color : Option Bool
  Matrix : Option Bool
  Multizone : Option Bool
  TemperatureRange : List Nat
  ExtendedMultizone : Option Bool
deriving DecidableEq

/-- The `copyBool` helper inside `ProductCapabilities.merge`: overwrite the
destination only when the source field is set. -/
def copyBool (dst src : Option Bool) : Option Bool :=
  match src with
  | none => dst
  | some b => some b

/-- `ProductCapabilities.merge`: apply the values set in `o`.  For the
temperature range the Go code copies `[]uint16{tr[0], tr[1]}` whenever the
source slice is non-empty (a one-element slice would panic in Go; `getD`
reads 0 there, which no well-formed catalog triggers). -/
def ProductCapabilities.merge (pc o : ProductCapabilities) : ProductCapabilities :=
  { HEV := copyBool pc.HEV o.HEV
    Color := copyBool pc.Color o.Color
    Matrix := copyBool pc.Matrix o.Matrix
    Multizone := copyBool pc.Multizone o.Multizone
    TemperatureRange :=
      if 0 < o.TemperatureRange.length then
        [o.TemperatureRange.getD 0 0, o.TemperatureRange.getD 1 0]
      else pc.TemperatureRange
    ExtendedMultizone := copyBool pc.ExtendedMultizone o.ExtendedMultizone }

/-- A firmware-gated upgrade entry of a `Product`. -/
structure Upgrade where
  Major : Nat
  Minor : Nat
  Features : ProductCapabilities
deriving DecidableEq

/-- `Product` from `products.go`. -/
structure Product where
  PID : Nat
  Name : String
  Features : ProductCapabilities
  Upgrades : List Upgrade
deriving DecidableEq

/-- `VendorProducts` from `products.go`. -/
structure VendorProducts where
  VID : Nat
  Name : String
  Defaults : ProductCapabilities
  Products : List Product
deriving DecidableEq

/-- `HostFirmware` (`info.go`); the build timestamp is unix nanoseconds. -/
structure HostFirmware where
  Build : Int
  Major : Nat
  Minor : Nat
deriving DecidableEq

/-- Lookup failures of `DetermineProduct`. -/
inductive ProductError where
  | unknownVendor (vid : Nat)
  | unknownProduct (pid vid : Nat)
deriving DecidableEq

/-- The baseline capability set `DetermineProduct` starts from: all the
boolean features explicitly `false`, and no `TemperatureRange` default. -/
def baselineCapabilities : ProductCapabilities :=
  { HEV := some false
    Color := some false
    Matrix := some false
    Multizone := some false
    TemperatureRange := []
    ExtendedMultizone := some false }

/-- One step of the upgrade loop in `DetermineProduct`: apply the upgrade's
features iff `firmwareVersion.Major >= u.Major && firmwareVersion.Minor >=
u.Minor` (the documented independent comparison). -/
def applyUpgrade (fw : HostFirmware) (c : ProductCapabilities) (u : Upgrade) :
    ProductCapabilities :=
  if u.Major ≤ fw.Major ∧ u.Minor ≤ fw.Minor then c.merge u.Features else c

/-- `DetermineProduct` from `products.go`: find the vendor, find the
product, then layer baseline → vendor defaults → product features →
eligible upgrades in listed order. -/
def DetermineProduct (file : List VendorProducts) (vendorID productID : Nat)
    (fw : HostFirmware) : Except ProductError Product :=
  match file.find? (fun v => v.VID == vendorID) with
  | none => .error (.unknownVendor vendorID)
  | some vp =>
    match vp.Products.find? (fun p => p.PID == productID) with
    | none => .error (.unknownProduct productID vendorID)
    | some product =>
      let cap := baselineCapabilities
      let cap := cap.merge vp.Defaults
      let cap := cap.merge product.Features
      let cap := product.Upgrades.foldl (applyUpgrade fw) cap
      .ok { product with Features := cap }

/-- Capability resolution as the spec words it (§4.5): start from an
all-false/empty baseline, merge the vendor defaults, merge the product
overrides, then apply each upgrade layer in listed order when the firmware
major and minor are each at least the upgrade's. -/
def resolveSpecLayers (defaults features : ProductCapabilities) (upgrades : List Upgrade)
    (fw : HostFirmware) : ProductCapabilities :=
  upgrades.foldl
    (fun c u => if fw.Major ≥ u.Major ∧ fw.Minor ≥ u.Minor then c.merge u.Features else c)
    ((baselineCapabilities.merge defaults).merge features)

end Lifx
namespace Lifx

/-- Extraction: a successful `DetermineProduct` returns the found product
with its features replaced by the layered fold. -/
lemma determineProduct_ok (file : List VendorProducts) (vendorID productID : Nat)
    (fw : HostFirmware) (p : Product)
    (hok : DetermineProduct file vendorID productID fw = .ok p) :
    ∃ vp product, file.find? (fun v => v.VID == vendorID) = some vp ∧
      vp.Products.find? (fun q => q.PID == productID) = some product ∧
      p = { product with
        Features := product.Upgrades.foldl (applyUpgrade fw)
          ((baselineCapabilities.merge vp.Defaults).merge product.Features) } := by
  unfold DetermineProduct at hok
  rcases hv : file.find? (fun v => v.VID == vendorID) with _ | vp
  · rw [hv] at hok
    simp at hok
  · rw [hv] at hok
    simp only at hok
    rcases hp : vp.Products.find? (fun q => q.PID == productID) with _ | product
    · rw [hp] at hok
      simp at hok
    · rw [hp] at hok
      simp only [Except.ok.injEq] at hok
      exact ⟨vp, product, hv, hp, hok.symm⟩

/-- The code's upgrade gate matches the spec's wording of the gate. -/
lemma applyUpgrade_eq_spec (fw : HostFirmware) :
    applyUpgrade fw =
      fun c u => if fw.Major ≥ u.Major ∧ fw.Minor ≥ u.Minor then c.merge u.Features else c := by
  funext c u
  simp [applyUpgrade, ge_iff_le]

/-- C6: capability resolution layers exactly as specified — baseline, then
vendor defaults, then product overrides, then the firmware-gated upgrades
in catalog order; each merge overwrites only the fields the merged layer
explicitly sets; and an upgrade applies iff the firmware major AND minor
are each at least the upgrade's (so a higher major with a lower minor
fails the gate). -/
theorem determineProduct_layering (file : List VendorProducts) (vendorID productID : Nat)
    (fw : HostFirmware) (p : Product)
    (hok : DetermineProduct file vendorID productID fw = .ok p) :
    (∃ vp prod, file.find? (fun v => v.VID == vendorID) = some vp ∧
      vp.Products.find? (fun q => q.PID == productID) = some prod ∧
      p.Features = resolveSpecLayers vp.Defaults prod.Features prod.Upgrades fw) ∧
    (∀ (c : ProductCapabilities) (u : Upgrade), (u.Major ≤ fw.Major ∧ u.Minor ≤ fw.Minor →
        applyUpgrade fw c u = c.merge u.Features) ∧
      (¬(u.Major ≤ fw.Major ∧ u.Minor ≤ fw.Minor) → applyUpgrade fw c u = c) ∧
      (fw.Minor < u.Minor → applyUpgrade fw c u = c)) ∧
    (∀ (pc o : ProductCapabilities),
      (o.HEV = none → (pc.merge o).HEV = pc.HEV) ∧
      (∀ b, o.HEV = some b → (pc.merge o).HEV = some b) ∧
      (o.Color = none → (pc.merge o).Color = pc.Color) ∧
      (∀ b, o.Color = some b → (pc.merge o).Color = some b) ∧
      (o.Matrix = none → (pc.merge o).Matrix = pc.Matrix) ∧
      (∀ b, o.Matrix = some b → (pc.merge o).Matrix = some b) ∧
      (o.Multizone = none → (pc.merge o).Multizone = pc.Multizone) ∧
      (∀ b, o.Multizone = some b → (pc.merge o).Multizone = some b) ∧
      (o.ExtendedMultizone = none →
        (pc.merge o).ExtendedMultizone = pc.ExtendedMultizone) ∧
      (∀ b, o.ExtendedMultizone = some b → (pc.merge o).ExtendedMultizone = some b) ∧
      (o.TemperatureRange = [] → (pc.merge o).TemperatureRange = pc.TemperatureRange)) := by
  refine ⟨?_, ?_, ?_⟩
  · obtain ⟨vp, product, hv, hp, hfeat⟩ :=
      determineProduct_ok file vendorID productID fw p hok
    refine ⟨vp, product, hv, hp, ?_⟩
    rw [hfeat]
    simp only [resolveSpecLayers, ← applyUpgrade_eq_spec]
  · intro c u
    refine ⟨fun h => ?_, fun h => ?_, fun h => ?_⟩
    · rw [applyUpgrade, if_pos h]
    · rw [applyUpgrade, if_neg h]
    · rw [applyUpgrade, if_neg (fun hc => absurd hc.2 (by omega))]
  · intro pc o
    refine ⟨?_, ?_, ?_, ?_, ?_, ?_, ?_, ?_, ?_, ?_, ?_⟩ <;>
      first
        | (intro h; simp [ProductCapabilities.merge, copyBool, h])
        | (intro b h; simp [ProductCapabilities.merge, copyBool, h])

end Lifx
namespace Lifx

/-- A small concrete catalog in the shape of `products.json`: one vendor
with color defaults and a multizone product with two firmware-gated
upgrades. -/
def sampleCatalog : List VendorProducts :=
  [{ VID := 1
     Name := "LIFX"
     Defaults := ⟨none, some true, none, none, [2500, 9000], none⟩
     Products :=
       [{ PID := 32
          Name := "LIFX Z"
          Features := ⟨none, none, none, some true, [], none⟩
          Upgrades :=
            [⟨2, 77, ⟨none, none, none, none, [], some true⟩⟩,
             ⟨2, 80, ⟨none, none, none, none, [1500, 9000], none⟩⟩] }] }]

/-- Witness for C6: on the sample catalog at firmware (2,78) the first
upgrade applies and the second does not, and the resolved features equal
the spec-side layering. -/
theorem determineProduct_layering_witness :
    ∃ vp prod, sampleCatalog.find? (fun v => v.VID == 1) = some vp ∧
      vp.Products.find? (fun q => q.PID == 32) = some prod ∧
      (⟨some false, some true, some false, some true, [2500, 9000], some true⟩ :
          ProductCapabilities) =
        resolveSpecLayers vp.Defaults prod.Features prod.Upgrades ⟨0, 2, 78⟩ :=
  (determineProduct_layering sampleCatalog 1 32 ⟨0, 2, 78⟩
    { PID := 32
      Name := "LIFX Z"
      Features := ⟨some false, some true, some false, some true, [2500, 9000], some true⟩
      Upgrades :=
        [⟨2, 77, ⟨none, none, none, none, [], some true⟩⟩,
         ⟨2, 80, ⟨none, none, none, none, [1500, 9000], none⟩⟩] } rfl).1

/-- A catalog whose only product sets no features at all: the resolver
succeeds on it, yet leaves the temperature range empty. -/
def bareCatalog : List VendorProducts :=
  [{ VID := 1
     Name := "V"
     Defaults := ⟨none, none, none, none, [], none⟩
     Products :=
       [{ PID := 7
          Name := "P"
          Features := ⟨none, none, none, none, [], none⟩
          Upgrades := [] }] }]

/-- C7 counterexample: the claim fails as stated.  `DetermineProduct`
succeeds on `bareCatalog`, but the returned capability set's
`TemperatureRange` is empty (Go `nil`) because the baseline has no
temperature-range default and no layer supplies one — matching the source
comment that it "may be nil from DetermineProduct", and contradicting
"every field ... including the temperature range". -/
theorem determineProduct_tempRange_cex :
    (DetermineProduct bareCatalog 1 7 ⟨0, 3, 70⟩).toOption.map
      (fun p => p.Features.TemperatureRange) = some [] := by
  decide

/-- All five boolean capability fields are set. -/
def boolsResolved (c : ProductCapabilities) : Prop :=
  c.HEV.isSome ∧ c.Color.isSome ∧ c.Matrix.isSome ∧
    c.Multizone.isSome ∧ c.ExtendedMultizone.isSome

lemma boolsResolved_merge (pc o : ProductCapabilities) (h : boolsResolved pc) :
    boolsResolved (pc.merge o) := by
  obtain ⟨h1, h2, h3, h4, h5⟩ := h
  refine ⟨?_, ?_, ?_, ?_, ?_⟩ <;>
    simp only [ProductCapabilities.merge]
  · cases o.HEV <;> simp [copyBool, h1]
  · cases o.Color <;> simp [copyBool, h2]
  · cases o.Matrix <;> simp [copyBool, h3]
  · cases o.Multizone <;> simp [copyBool, h4]
  · cases o.ExtendedMultizone <;> simp [copyBool, h5]

lemma boolsResolved_foldl (fw : HostFirmware) (l : List Upgrade)
    (c : ProductCapabilities) (h : boolsResolved c) :
    boolsResolved (l.foldl (applyUpgrade fw) c) := by
  induction l generalizing c with
  | nil => simpa using h
  | cons u rest ih =>
    rw [List.foldl_cons]
    refine ih _ ?_
    unfold applyUpgrade
    split
    · exact boolsResolved_merge _ _ h
    · exact h

/-- C7 (amended): whenever the resolver succeeds, every boolean capability
field of the returned feature set is concretely set (`HEV`, `Color`,
`Matrix`, `Multizone`, `ExtendedMultizone` are all non-null); the
temperature range, however, may remain empty when no layer supplies one. -/
theorem determineProduct_bools_resolved (file : List VendorProducts)
    (vendorID productID : Nat) (fw : HostFirmware) (p : Product)
    (hok : DetermineProduct file vendorID productID fw = .ok p) :
    p.Features.HEV.isSome ∧ p.Features.Color.isSome ∧ p.Features.Matrix.isSome ∧
      p.Features.Multizone.isSome ∧ p.Features.ExtendedMultizone.isSome := by
  obtain ⟨vp, product, hv, hp, hfeat⟩ :=
    determineProduct_ok file vendorID productID fw p hok
  have hbase : boolsResolved baselineCapabilities := by
    refine ⟨rfl, rfl, rfl, rfl, rfl⟩
  have h := boolsResolved_foldl fw product.Upgrades
    ((baselineCapabilities.merge vp.Defaults).merge product.Features)
    (boolsResolved_merge _ _ (boolsResolved_merge _ _ hbase))
  rw [hfeat]
  exact h

/-- Witness for C7 (amended) on the sample catalog. -/
theorem determineProduct_bools_resolved_witness :
    ∃ p, DetermineProduct sampleCatalog 1 32 ⟨0, 2, 78⟩ = .ok p ∧
      p.Features.HEV.isSome ∧ p.Features.Color.isSome ∧ p.Features.Matrix.isSome ∧
        p.Features.Multizone.isSome ∧ p.Features.ExtendedMultizone.isSome :=
  ⟨_, rfl, determineProduct_bools_resolved sampleCatalog 1 32 ⟨0, 2, 78⟩ _ rfl⟩

end Lifx
